import Mathlib

/-!
Shallow embedding of the core game logic of the Snake repository: grid
geometry (game/geometry.go), snake body operations (game/geometry.go) and
the per-tick state transition of handleGameLogic (game/game.go).

Modelling conventions:
- Go float64 coordinates only ever hold integer values here (every update
  adds or subtracts 1, and food coordinates come from rand.Intn), so
  coordinates are modelled as Int.
- Go integer division truncates toward zero, which is Int.tdiv.
- Go methods that mutate the receiver are modelled in state-passing style.
-/

/-- Grid side length, from the constant cellsCount = 20 in game/game.go. -/
def cellsCount : Int := 20

/-- Initial tick interval, from the constant startSpeed = 300 in game/game.go. -/
def startSpeed : Int := 300

/-- Go struct Point with X, Y float64; the coordinates are integer-valued. -/
@[ext]
structure Point where
  x : Int
  y : Int
deriving DecidableEq, Repr

/-- Point.IsCorner from game/geometry.go. -/
def Point.IsCorner (p : Point) : Bool :=
  (p.x == 0 && p.y == 0) || (p.x == 0 && p.y == cellsCount - 1) ||
    (p.x == cellsCount - 1 && p.y == 0) || (p.x == cellsCount - 1 && p.y == cellsCount - 1)

/-- Point.IsEdge from game/geometry.go. -/
def Point.IsEdge (p : Point) : Bool :=
  p.x == 0 || p.y == 0 || p.x == cellsCount - 1 || p.y == cellsCount - 1

/-- Go type Dir int; the direction constants below come from the iota block in
game/geometry.go (up = 0, right = 1, down = 2, left = 3). -/
abbrev Dir := Int

/-- Direction constant up = 0. -/
def Dir.up : Dir := 0

/-- Direction constant right = 1. -/
def Dir.right : Dir := 1

/-- Direction constant down = 2. -/
def Dir.down : Dir := 2

/-- Direction constant left = 3. -/
def Dir.left : Dir := 3

/-- Dir.Exec from game/geometry.go: moves the point one cell in the given
direction; a direction outside the four constants leaves the point unchanged. -/
def Dir.Exec (d : Dir) (point : Point) : Point :=
  if d = Dir.up then ⟨point.x, point.y + 1⟩
  else if d = Dir.down then ⟨point.x, point.y - 1⟩
  else if d = Dir.left then ⟨point.x - 1, point.y⟩
  else if d = Dir.right then ⟨point.x + 1, point.y⟩
  else point

/-- The four direction values that the game ever stores (Reset sets right and
FromKey only returns one of the four constants). -/
abbrev validDir (d : Dir) : Prop :=
  d = Dir.up ∨ d = Dir.right ∨ d = Dir.down ∨ d = Dir.left

/-- Written from the specification wording, not from the source: the geometric
opposite of a direction (up-down, left-right), used to state the round-trip
property of Dir.Exec that the specification claims. -/
def oppositeDir (d : Dir) : Dir :=
  if d = Dir.up then Dir.down
  else if d = Dir.down then Dir.up
  else if d = Dir.left then Dir.right
  else if d = Dir.right then Dir.left
  else d

/-- Go struct Snake from game/geometry.go: Direction, Parts (head first), Size. -/
structure Snake where
  Direction : Dir
  Parts : List Point
  Size : Int
deriving DecidableEq, Repr

/-- NewSnake() from game/geometry.go returns the zero-valued Snake. -/
def NewSnake : Snake :=
  { Direction := 0, Parts := [], Size := 0 }

/-- Snake.Add from game/geometry.go: prepends a new head cell. -/
def Snake.Add (s : Snake) (point : Point) : Snake :=
  { s with Parts := point :: s.Parts }

/-- Snake.IsSnake from game/geometry.go: membership of a point in the body. -/
def Snake.IsSnake (s : Snake) (point : Point) : Bool :=
  s.Parts.contains point

/-- Scan loop of Snake.CutIfSnake: returns some of the kept prefix Parts[0:i]
when the point first occurs at index i, and none when the point is not on the
body. -/
def cutIfSnakeAux (point : Point) : List Point → Option (List Point)
  | [] => none
  | q :: rest => if q = point then some [] else (cutIfSnakeAux point rest).map (q :: ·)

/-- Snake.CutIfSnake from game/geometry.go, in state-passing form: the Go method
mutates s.Parts to the kept prefix and returns true, or leaves the body alone
and returns false. -/
def Snake.CutIfSnake (s : Snake) (point : Point) : Bool × Snake :=
  match cutIfSnakeAux point s.Parts with
  | some kept => (true, { s with Parts := kept })
  | none => (false, s)

/-- Snake.Head from game/geometry.go: first cell, or the sentinel (-1,-1) when
the body is empty. -/
def Snake.Head (s : Snake) : Point :=
  match s.Parts with
  | [] => ⟨-1, -1⟩
  | p :: _ => p

/-- Snake.Tail from game/geometry.go: last cell, or the sentinel (-1,-1) when
the body is empty. -/
def Snake.Tail (s : Snake) : Point :=
  match s.Parts.getLast? with
  | none => ⟨-1, -1⟩
  | some p => p

/-- Loop of Snake.Reset: for i from length - 1 down to 0, append Point{x+i, y}
to the parts and increment the size counter. -/
def resetLoop (x y : Int) : Nat → List Point × Int → List Point × Int
  | 0, acc => acc
  | n + 1, acc => resetLoop x y n (acc.1 ++ [⟨x + n, y⟩], acc.2 + 1)

/-- Snake.Reset from game/geometry.go: clears Parts, sets Direction to right and
rebuilds the 3-cell starting body at row y = 1. Note that the loop increments
Size three times without zeroing it first. -/
def Snake.Reset (s : Snake) : Snake :=
  let res := resetLoop 1 1 3 ([], s.Size)
  { Direction := Dir.right, Parts := res.1, Size := res.2 }

/-- Loop of Snake.Move: every remaining cell takes the previous position of its
predecessor. -/
def shiftTail (lastPoint : Point) : List Point → List Point
  | [] => []
  | q :: rest => lastPoint :: shiftTail q rest

/-- Snake.Move from game/geometry.go. The Go code indexes s.Parts[0] and would
panic on an empty body, a case that never occurs in the running game; the model
returns the snake unchanged there. -/
def Snake.Move (s : Snake) (directional : Dir) : Snake :=
  match s.Parts with
  | [] => s
  | p0 :: rest => { s with Parts := Dir.Exec directional p0 :: shiftTail p0 rest }

/-- The fields of the Game struct in game/game.go that the per-tick logic of
handleGameLogic reads and writes (param.speed is inlined as speed). -/
structure GameState where
  snake : Snake
  food : Point
  score : Int
  ateFood : Int
  speed : Int
  gameOver : Bool
  needMove : Bool
  needUpdateInfo : Bool
deriving DecidableEq, Repr

/-- collidesWithWall from game/game.go. -/
def collidesWithWall (newPos : Point) : Bool :=
  decide (newPos.x < 0) || decide (cellsCount ≤ newPos.x) ||
    decide (newPos.y < 0) || decide (cellsCount ≤ newPos.y)

/-- Membership of a point in the playable grid, the complement of a wall
collision; used to phrase bounds claims. -/
abbrev inGrid (p : Point) : Prop :=
  0 ≤ p.x ∧ p.x ≤ cellsCount - 1 ∧ 0 ≤ p.y ∧ p.y ≤ cellsCount - 1

/-- calculateScore from game/game.go; it reads the speed field as it is at the
moment of the call. -/
def calculateScore (speed : Int) (pos : Point) : Int :=
  if pos.IsCorner then Int.tdiv 1000 speed * 4
  else if pos.IsEdge then Int.tdiv 1000 speed * 2
  else Int.tdiv 1000 speed

/-- Prospective next head cell of a tick, g.snake.Direction.Exec(g.snake.Parts[0]).
The Go code indexes Parts[0] directly and would panic on an empty body (a case
that never occurs in the running game); Snake.Head agrees with Parts[0] on
every non-empty body. -/
def prospectiveHead (g : GameState) : Point :=
  Dir.Exec g.snake.Direction g.snake.Head

/-- Wall-collision step of a tick: if collidesWithWall(newPos) then the gameOver
flag is set. -/
def wallStep (newPos : Point) (g : GameState) : GameState :=
  if collidesWithWall newPos then { g with gameOver := true } else g

/-- Self-bite step of a tick: when g.snake.CutIfSnake(newPos) succeeds the score
is rescaled by score = score / Size * newSize (integer division first, reading
the old Size counter) and Size becomes the new body length. -/
def cutStep (newPos : Point) (g : GameState) : GameState :=
  let res := g.snake.CutIfSnake newPos
  if res.fst then
    { g with
      snake := { res.snd with Size := (res.snd.Parts.length : Int) },
      score := Int.tdiv g.score g.snake.Size * (res.snd.Parts.length : Int),
      needUpdateInfo := true }
  else g

/-- Food and movement step of a tick: on food consumption the snake grows, the
food is regenerated (modelled by the freshFood parameter), speed decreases by 5
and only after that the score bonus is computed from the new speed; otherwise,
when the game is not over, the snake moves one cell. -/
def foodStep (freshFood newPos : Point) (g : GameState) : GameState :=
  if newPos = g.food then
    { g with
      snake := { g.snake.Add newPos with Size := g.snake.Size + 1 },
      food := freshFood,
      ateFood := g.ateFood + 1,
      speed := g.speed - 5,
      score := g.score + calculateScore (g.speed - 5) newPos,
      needUpdateInfo := true }
  else if g.gameOver then g
  else { g with snake := g.snake.Move g.snake.Direction, needMove := true }

/-- One iteration of the handleGameLogic loop in game/game.go: the prospective
head is computed once, then the wall check, the self-bite check and the food or
movement step run in the order of the source. -/
def tick (freshFood : Point) (g : GameState) : GameState :=
  foodStep freshFood (prospectiveHead g)
    (cutStep (prospectiveHead g) (wallStep (prospectiveHead g) g))

/-- foodGeneration from game/game.go, with the stream of rand.Intn(cellsCount)
draws made explicit as a list of coordinate pairs: the first drawn cell that is
not on the snake body is accepted; none is returned when the finite draw list
is exhausted (the Go loop would keep drawing). -/
def foodGeneration (s : Snake) : List (Nat × Nat) → Option Point
  | [] => none
  | (randX, randY) :: rest =>
    if s.IsSnake ⟨(randX : Int), (randY : Int)⟩ then foodGeneration s rest
    else some ⟨(randX : Int), (randY : Int)⟩

/-- restartGame from game/game.go. -/
def restartGame (g : GameState) : GameState :=
  { g with
    snake := g.snake.Reset,
    score := 0,
    ateFood := 0,
    speed := 300,
    gameOver := false }

/-- State for the C4 witness: head at (19,1) moving right, so the prospective
head (20,1) has x = cellsCount. -/
def c4State : GameState :=
  { snake := { Direction := Dir.right, Parts := [⟨19, 1⟩, ⟨18, 1⟩, ⟨17, 1⟩], Size := 3 },
    food := ⟨10, 10⟩, score := 0, ateFood := 0, speed := 300,
    gameOver := false, needMove := false, needUpdateInfo := false }

/-- State for the C10 witness: a snake about to bite its own body cell (2,3). -/
def c10State : GameState :=
  { snake := { Direction := Dir.up,
               Parts := [⟨2, 2⟩, ⟨3, 2⟩, ⟨2, 3⟩, ⟨4, 2⟩, ⟨5, 2⟩], Size := 5 },
    food := ⟨10, 10⟩, score := 9, ateFood := 0, speed := 300,
    gameOver := false, needMove := false, needUpdateInfo := false }

/-- State for C2: straight snake with the food (5,1) directly ahead, an
interior cell, and speed 105, so that 1000/105 = 9 differs from 1000/100 = 10. -/
def c2State : GameState :=
  { snake := { Direction := Dir.right, Parts := [⟨4, 1⟩, ⟨3, 1⟩, ⟨2, 1⟩], Size := 3 },
    food := ⟨5, 1⟩, score := 0, ateFood := 0, speed := 105,
    gameOver := false, needMove := false, needUpdateInfo := false }

/-- State for C1: a snake of length 5 with Size 5 and score 9 whose prospective
head (2,3) is the body cell at index 2. -/
def c1State : GameState :=
  { snake := { Direction := Dir.up,
               Parts := [⟨2, 2⟩, ⟨3, 2⟩, ⟨2, 3⟩, ⟨4, 2⟩, ⟨5, 2⟩], Size := 5 },
    food := ⟨10, 10⟩, score := 9, ateFood := 0, speed := 300,
    gameOver := false, needMove := false, needUpdateInfo := false }

/-- State for C3: a finished game (gameOver set) whose snake is the 3-cell
start body with Size 3, exactly the state right after the initial start. -/
def c3State : GameState :=
  { snake := NewSnake.Reset, food := ⟨5, 5⟩, score := 500, ateFood := 2, speed := 250,
    gameOver := true, needMove := false, needUpdateInfo := false }

/-! ## Helper lemmas about the body operations -/

lemma cutAux_none (point : Point) (parts : List Point) (h : point ∉ parts) :
    cutIfSnakeAux point parts = none := by
  induction parts with
  | nil => rfl
  | cons q rest ih =>
    simp only [List.mem_cons, not_or] at h
    simp [cutIfSnakeAux, Ne.symm h.1, ih h.2]

lemma cutAux_first (point : Point) :
    ∀ (parts : List Point) (i : Nat) (hi : i < parts.length),
      parts[i] = point →
      (∀ j, j < i → parts[j]? ≠ some point) →
      cutIfSnakeAux point parts = some (parts.take i) := by
  intro parts
  induction parts with
  | nil => intro i hi; simp at hi
  | cons q rest ih =>
    intro i hi hp hfirst
    cases i with
    | zero =>
      simp only [List.getElem_cons_zero] at hp
      simp [cutIfSnakeAux, hp]
    | succ i' =>
      have hq : q ≠ point := by
        intro hqp
        exact hfirst 0 (Nat.succ_pos i') (by simp [hqp])
      have hi' : i' < rest.length := by
        simpa using hi
      have hp' : rest[i'] = point := by
        simpa using hp
      have hfirst' : ∀ j, j < i' → rest[j]? ≠ some point := by
        intro j hj
        have := hfirst (j + 1) (by omega)
        simpa using this
      simp [cutIfSnakeAux, hq, ih i' hi' hp' hfirst', List.take_succ_cons]

lemma shiftTail_dropLast (a : Point) (l : List Point) :
    shiftTail a l = (a :: l).dropLast := by
  induction l generalizing a with
  | nil => rfl
  | cons b bs ih => simp [shiftTail, ih b, List.dropLast]

lemma shiftTail_length (a : Point) (l : List Point) :
    (shiftTail a l).length = l.length := by
  rw [shiftTail_dropLast]
  simp

lemma exec_ne_of_valid (d : Dir) (p : Point) (hd : validDir d) :
    Dir.Exec d p ≠ p := by
  rcases hd with h | h | h | h <;> subst h <;>
    simp [Dir.Exec, Dir.up, Dir.right, Dir.down, Dir.left, Point.ext_iff]

lemma move_parts (s : Snake) (d : Dir) (p0 : Point) (rest : List Point)
    (h : s.Parts = p0 :: rest) :
    (s.Move d).Parts = Dir.Exec d p0 :: shiftTail p0 rest := by
  simp [Snake.Move, h]

lemma move_size (s : Snake) (d : Dir) : (s.Move d).Size = s.Size := by
  unfold Snake.Move
  split <;> rfl

lemma move_direction (s : Snake) (d : Dir) : (s.Move d).Direction = s.Direction := by
  unfold Snake.Move
  split <;> rfl

lemma move_length (s : Snake) (d : Dir) :
    (s.Move d).Parts.length = s.Parts.length := by
  unfold Snake.Move
  split
  · rfl
  · next p0 rest h => simp [h, shiftTail_length]

/-! ## Helper lemmas about the tick steps -/

lemma wallStep_eq (p : Point) (g : GameState) :
    wallStep p g = { g with gameOver := g.gameOver || collidesWithWall p } := by
  unfold wallStep
  cases h : collidesWithWall p <;> simp [h]

lemma cutStep_of_not_mem (p : Point) (g : GameState) (h : p ∉ g.snake.Parts) :
    cutStep p g = g := by
  unfold cutStep Snake.CutIfSnake
  rw [cutAux_none p g.snake.Parts h]
  rfl

lemma cutStep_of_found (p : Point) (g : GameState) (kept : List Point)
    (h : cutIfSnakeAux p g.snake.Parts = some kept) :
    cutStep p g = { g with
      snake := { g.snake with Parts := kept, Size := (kept.length : Int) },
      score := Int.tdiv g.score g.snake.Size * (kept.length : Int),
      needUpdateInfo := true } := by
  unfold cutStep Snake.CutIfSnake
  rw [h]
  rfl

lemma cutStep_gameOver (p : Point) (g : GameState) :
    (cutStep p g).gameOver = g.gameOver := by
  unfold cutStep Snake.CutIfSnake
  cases h : cutIfSnakeAux p g.snake.Parts <;> simp

lemma wallStep_snake (p : Point) (g : GameState) : (wallStep p g).snake = g.snake := by
  unfold wallStep
  split <;> rfl

lemma wallStep_score (p : Point) (g : GameState) : (wallStep p g).score = g.score := by
  unfold wallStep
  split <;> rfl

lemma wallStep_food (p : Point) (g : GameState) : (wallStep p g).food = g.food := by
  unfold wallStep
  split <;> rfl

lemma cutStep_food (p : Point) (g : GameState) : (cutStep p g).food = g.food := by
  unfold cutStep Snake.CutIfSnake
  cases h : cutIfSnakeAux p g.snake.Parts <;> simp

lemma cutStep_found_score (p : Point) (g : GameState) (kept : List Point)
    (h : cutIfSnakeAux p g.snake.Parts = some kept) :
    (cutStep p g).score = Int.tdiv g.score g.snake.Size * (kept.length : Int) := by
  rw [cutStep_of_found p g kept h]

lemma cutStep_found_size (p : Point) (g : GameState) (kept : List Point)
    (h : cutIfSnakeAux p g.snake.Parts = some kept) :
    (cutStep p g).snake.Size = (kept.length : Int) := by
  rw [cutStep_of_found p g kept h]

lemma cutStep_found_parts (p : Point) (g : GameState) (kept : List Point)
    (h : cutIfSnakeAux p g.snake.Parts = some kept) :
    (cutStep p g).snake.Parts = kept := by
  rw [cutStep_of_found p g kept h]

lemma foodStep_gameOver (f p : Point) (g : GameState) :
    (foodStep f p g).gameOver = g.gameOver := by
  unfold foodStep
  split_ifs <;> rfl

lemma foodStep_eats (f p : Point) (g : GameState) (h : p = g.food) :
    foodStep f p g = { g with
      snake := { g.snake.Add p with Size := g.snake.Size + 1 },
      food := f,
      ateFood := g.ateFood + 1,
      speed := g.speed - 5,
      score := g.score + calculateScore (g.speed - 5) p,
      needUpdateInfo := true } := by
  unfold foodStep
  rw [if_pos h]

lemma foodStep_miss_fields (f p : Point) (g : GameState) (h : p ≠ g.food) :
    (foodStep f p g).score = g.score
    ∧ (foodStep f p g).snake.Size = g.snake.Size
    ∧ (foodStep f p g).speed = g.speed
    ∧ (foodStep f p g).snake.Parts.length = g.snake.Parts.length := by
  unfold foodStep
  rw [if_neg h]
  split_ifs
  · exact ⟨rfl, rfl, rfl, rfl⟩
  · exact ⟨rfl, move_size g.snake g.snake.Direction, rfl, move_length g.snake g.snake.Direction⟩

lemma cutStep_head_kept (newPos : Point) (g : GameState) (p0 : Point) (rest : List Point)
    (h : g.snake.Parts = p0 :: rest) (hp : p0 ≠ newPos) :
    ∃ l, (cutStep newPos g).snake.Parts = p0 :: l := by
  have haux : cutIfSnakeAux newPos g.snake.Parts
      = (cutIfSnakeAux newPos rest).map (p0 :: ·) := by
    rw [h]
    simp [cutIfSnakeAux, hp]
  cases h2 : cutIfSnakeAux newPos rest with
  | none =>
    have hnone : cutIfSnakeAux newPos g.snake.Parts = none := by rw [haux, h2]; rfl
    refine ⟨rest, ?_⟩
    unfold cutStep Snake.CutIfSnake
    rw [hnone]
    exact h
  | some l =>
    have hsome : cutIfSnakeAux newPos g.snake.Parts = some (p0 :: l) := by rw [haux, h2]; rfl
    rw [cutStep_of_found newPos g (p0 :: l) hsome]
    exact ⟨l, rfl⟩

lemma foodStep_keeps_nonempty (f p : Point) (g : GameState)
    (h : g.snake.Parts ≠ []) :
    (foodStep f p g).snake.Parts ≠ [] := by
  unfold foodStep
  split_ifs
  · simp [Snake.Add]
  · exact h
  · unfold Snake.Move
    split
    · exact h
    · simp

/-! ## Claim theorems -/

/-- C5: for every snake body and position p, if p first occurs in the body at
head-to-tail index i then CutIfSnake(p) truncates the body to exactly its first
i cells and returns true; if p occurs nowhere in the body, CutIfSnake(p)
returns false and leaves the body unchanged. -/
theorem cutIfSnake_first_index_or_unchanged (s : Snake) (point : Point) :
    (∀ (i : Nat) (hi : i < s.Parts.length),
        s.Parts[i] = point →
        (∀ j, j < i → s.Parts[j]? ≠ some point) →
        s.CutIfSnake point = (true, { s with Parts := s.Parts.take i }))
    ∧ (point ∉ s.Parts → s.CutIfSnake point = (false, s)) := by
  constructor
  · intro i hi hp hfirst
    unfold Snake.CutIfSnake
    rw [cutAux_first point s.Parts i hi hp hfirst]
  · intro hmem
    unfold Snake.CutIfSnake
    rw [cutAux_none point s.Parts hmem]

/-- Witness for C5: on the reset body [(3,1),(2,1),(1,1)], cutting at (2,1)
keeps exactly the first cell and returns true, while cutting at the absent
point (9,9) returns false and leaves the body unchanged. -/
theorem cutIfSnake_first_index_or_unchanged_witness :
    NewSnake.Reset.CutIfSnake ⟨2, 1⟩
      = (true, { NewSnake.Reset with Parts := NewSnake.Reset.Parts.take 1 })
    ∧ NewSnake.Reset.CutIfSnake ⟨9, 9⟩ = (false, NewSnake.Reset) :=
  ⟨(cutIfSnake_first_index_or_unchanged NewSnake.Reset ⟨2, 1⟩).1 1 (by decide)
      (by decide) (by decide),
   (cutIfSnake_first_index_or_unchanged NewSnake.Reset ⟨9, 9⟩).2 (by decide)⟩

/-- C6: for every non-empty snake body and direction d, Move(d) preserves the
body length and shifts every body cell to the position of its predecessor
(the new list is the new head followed by the old list without its last cell)
while the head becomes Exec(d, oldHead); for every snake body and position q,
Add(q) increases the body length by exactly 1 and places q at the head. -/
theorem move_preserves_length_and_add_grows (s : Snake) (d : Dir) (q : Point) :
    (s.Parts ≠ [] →
      (s.Move d).Parts.length = s.Parts.length
      ∧ (s.Move d).Parts = Dir.Exec d s.Head :: s.Parts.dropLast)
    ∧ (s.Add q).Parts = q :: s.Parts
    ∧ (s.Add q).Parts.length = s.Parts.length + 1 := by
  refine ⟨?_, rfl, by simp [Snake.Add]⟩
  intro hne
  obtain ⟨p0, rest, h⟩ := List.exists_cons_of_ne_nil hne
  constructor
  · exact move_length s d
  · rw [move_parts s d p0 rest h, shiftTail_dropLast, h]
    simp [Snake.Head, h]

/-- Witness for C6: moving the reset body right gives a body of the same
length, with the new head one cell to the right and the old last cell gone;
adding a cell prepends it and grows the length by one. -/
theorem move_preserves_length_and_add_grows_witness :
    ((NewSnake.Reset.Move Dir.right).Parts.length = NewSnake.Reset.Parts.length
      ∧ (NewSnake.Reset.Move Dir.right).Parts
          = Dir.Exec Dir.right NewSnake.Reset.Head :: NewSnake.Reset.Parts.dropLast)
    ∧ (NewSnake.Reset.Add ⟨7, 7⟩).Parts = ⟨7, 7⟩ :: NewSnake.Reset.Parts
    ∧ (NewSnake.Reset.Add ⟨7, 7⟩).Parts.length = NewSnake.Reset.Parts.length + 1 :=
  ⟨(move_preserves_length_and_add_grows NewSnake.Reset Dir.right ⟨7, 7⟩).1 (by decide),
   (move_preserves_length_and_add_grows NewSnake.Reset Dir.right ⟨7, 7⟩).2⟩

/-- C7: for every position p, Exec with each of the four valid directions
changes exactly one coordinate of p by exactly 1 (up: y+1, down: y-1,
left: x-1, right: x+1), applying Exec with the geometric opposite direction
returns p, and Exec with any other direction value returns p unchanged. -/
theorem exec_unit_offsets_roundtrip_and_default (p : Point) (d : Dir) :
    (d = Dir.up → Dir.Exec d p = ⟨p.x, p.y + 1⟩)
    ∧ (d = Dir.down → Dir.Exec d p = ⟨p.x, p.y - 1⟩)
    ∧ (d = Dir.left → Dir.Exec d p = ⟨p.x - 1, p.y⟩)
    ∧ (d = Dir.right → Dir.Exec d p = ⟨p.x + 1, p.y⟩)
    ∧ (validDir d → Dir.Exec (oppositeDir d) (Dir.Exec d p) = p)
    ∧ (¬ validDir d → Dir.Exec d p = p) := by
  refine ⟨?_, ?_, ?_, ?_, ?_, ?_⟩
  · intro h; subst h; rfl
  · intro h; subst h
    simp [Dir.Exec, Dir.up, Dir.down]
  · intro h; subst h
    simp [Dir.Exec, Dir.up, Dir.down, Dir.left]
  · intro h; subst h
    simp [Dir.Exec, Dir.up, Dir.down, Dir.left, Dir.right]
  · intro h
    rcases h with h | h | h | h <;> subst h <;>
      simp [Dir.Exec, oppositeDir, Dir.up, Dir.right, Dir.down, Dir.left, Point.ext_iff]
  · intro h
    simp only [validDir, not_or] at h
    obtain ⟨h1, h2, h3, h4⟩ := h
    simp [Dir.Exec, h1, h2, h3, h4]

/-- Witness for C7: at p = (3,4), up yields (3,5), down undoes up, and the
invalid direction value 7 leaves p unchanged. -/
theorem exec_unit_offsets_roundtrip_and_default_witness :
    Dir.Exec Dir.up ⟨3, 4⟩ = ⟨3, 5⟩
    ∧ Dir.Exec (oppositeDir Dir.up) (Dir.Exec Dir.up ⟨3, 4⟩) = ⟨3, 4⟩
    ∧ Dir.Exec 7 ⟨3, 4⟩ = ⟨3, 4⟩ := by
  refine ⟨?_, ?_, ?_⟩
  · simpa using (exec_unit_offsets_roundtrip_and_default ⟨3, 4⟩ Dir.up).1 rfl
  · exact (exec_unit_offsets_roundtrip_and_default ⟨3, 4⟩ Dir.up).2.2.2.2.1 (by decide)
  · exact (exec_unit_offsets_roundtrip_and_default ⟨3, 4⟩ 7).2.2.2.2.2 (by decide)

/-- C9: Head() returns the first body cell and Tail() the last body cell for
every snake (falling back to the sentinel (-1,-1) exactly when the body is
empty), and the sentinel is never a valid grid cell. -/
theorem head_tail_first_last_or_sentinel (s : Snake) :
    s.Head = s.Parts.head?.getD ⟨-1, -1⟩
    ∧ s.Tail = s.Parts.getLast?.getD ⟨-1, -1⟩
    ∧ ¬ inGrid ⟨-1, -1⟩ := by
  refine ⟨?_, ?_, by decide⟩
  · cases h : s.Parts <;> simp [Snake.Head, h]
  · unfold Snake.Tail
    cases h : s.Parts.getLast? <;> simp [h]

lemma tick_gameOver_eq (f : Point) (g : GameState) :
    (tick f g).gameOver = (g.gameOver || collidesWithWall (prospectiveHead g)) := by
  unfold tick
  rw [foodStep_gameOver, cutStep_gameOver, wallStep_eq]

/-- C4: on a tick of a running game (gameOver still false), the gameOver flag
transitions to true exactly when the prospective head lies outside the grid
[0, cellsCount-1] x [0, cellsCount-1]; in particular a self-collision alone
never sets it. -/
theorem tick_gameOver_iff_wall_collision (f : Point) (g : GameState)
    (_hne : g.snake.Parts ≠ []) (hgo : g.gameOver = false) :
    ((tick f g).gameOver = true ↔ ¬ inGrid (prospectiveHead g)) := by
  rw [tick_gameOver_eq, hgo, Bool.false_or]
  simp only [collidesWithWall, inGrid, cellsCount, Bool.or_eq_true, decide_eq_true_eq]
  omega

/-- Witness for C4: the head reaching x = cellsCount makes gameOver true. -/
theorem tick_gameOver_iff_wall_collision_witness :
    (tick ⟨0, 0⟩ c4State).gameOver = true :=
  (tick_gameOver_iff_wall_collision ⟨0, 0⟩ c4State (by decide) (by decide)).mpr (by decide)

/-- C10: for every non-empty body and every valid direction, the prospective
head differs from the current head, and the body is again non-empty after the
tick, so the unguarded read of Parts[0] at the start of the next tick never
sees an empty body. -/
theorem tick_keeps_body_nonempty (f : Point) (g : GameState)
    (hne : g.snake.Parts ≠ []) (hd : validDir g.snake.Direction) :
    prospectiveHead g ≠ g.snake.Head ∧ (tick f g).snake.Parts ≠ [] := by
  have hph : prospectiveHead g ≠ g.snake.Head :=
    exec_ne_of_valid g.snake.Direction g.snake.Head hd
  refine ⟨hph, ?_⟩
  obtain ⟨p0, rest, h⟩ := List.exists_cons_of_ne_nil hne
  have hhead : g.snake.Head = p0 := by simp [Snake.Head, h]
  have hp : p0 ≠ prospectiveHead g := by
    rw [← hhead]
    exact fun he => hph he.symm
  unfold tick
  apply foodStep_keeps_nonempty
  have hw : (wallStep (prospectiveHead g) g).snake = g.snake := by rw [wallStep_eq]
  obtain ⟨l, hl⟩ := cutStep_head_kept (prospectiveHead g)
    (wallStep (prospectiveHead g) g) p0 rest (by rw [hw, h]) hp
  rw [hl]
  simp

/-- Witness for C10: even on a self-bite tick the body stays non-empty. -/
theorem tick_keeps_body_nonempty_witness :
    prospectiveHead c10State ≠ c10State.snake.Head
    ∧ (tick ⟨0, 0⟩ c10State).snake.Parts ≠ [] :=
  tick_keeps_body_nonempty ⟨0, 0⟩ c10State (by decide) (by decide)

/-- C2 (amended): on a tick that consumes the food (the prospective head equals
the food cell, which is not on the body), the speed first drops by 5 and the
score then increases by 1000/(s-5)*4 for a corner cell, 1000/(s-5)*2 for an
edge cell and 1000/(s-5) otherwise, where s is the speed in effect when the
tick fired — the bonus is computed from the already decremented speed because
handleGameLogic runs the decrement before calling calculateScore. -/
theorem tick_food_score_uses_decremented_speed (f : Point) (g : GameState)
    (_hne : g.snake.Parts ≠ [])
    (hfood : prospectiveHead g = g.food)
    (hnotbody : g.food ∉ g.snake.Parts) :
    (tick f g).speed = g.speed - 5
    ∧ (tick f g).score = g.score +
        (if g.food.IsCorner then Int.tdiv 1000 (g.speed - 5) * 4
         else if g.food.IsEdge then Int.tdiv 1000 (g.speed - 5) * 2
         else Int.tdiv 1000 (g.speed - 5)) := by
  unfold tick
  rw [hfood]
  have h1 : g.food ∉ (wallStep g.food g).snake.Parts := by
    rw [wallStep_eq]
    exact hnotbody
  rw [cutStep_of_not_mem g.food (wallStep g.food g) h1]
  rw [foodStep_eats f g.food (wallStep g.food g) (by rw [wallStep_eq])]
  rw [wallStep_eq]
  exact ⟨rfl, rfl⟩

/-- Witness for C2: consuming the interior food at speed 105 leaves speed 100
and adds 1000/100 = 10 to the score. -/
theorem tick_food_score_uses_decremented_speed_witness :
    (tick ⟨0, 0⟩ c2State).speed = 100 ∧ (tick ⟨0, 0⟩ c2State).score = 10 := by
  obtain ⟨h1, h2⟩ :=
    tick_food_score_uses_decremented_speed ⟨0, 0⟩ c2State (by decide) (by decide) (by decide)
  constructor
  · rw [h1]
    decide
  · rw [h2]
    decide

/-- Counterexample for C2 as stated: at speed 105 the score gained for an
interior food cell is 10 = 1000/(105-5), not 1000/105 = 9, because the speed
decrement happens before the score is computed. -/
theorem tick_food_score_at_consumption_speed_counterexample :
    (tick ⟨0, 0⟩ c2State).score - c2State.score ≠ Int.tdiv 1000 c2State.speed
    ∧ (tick ⟨0, 0⟩ c2State).score - c2State.score
        = Int.tdiv 1000 (c2State.speed - 5) := by
  decide

/-- C1 (amended): on a tick whose prospective head first occurs on the body at
index i (and is not the food cell), the body truncates to its first i cells and
the score is rescaled as score = score / Size * i — integer division by the old
Size counter first, then multiplication by the new length — and the Size
counter becomes i. -/
theorem tick_selfbite_rescales_score_divide_first (f : Point) (g : GameState) (i : Nat)
    (_hne : g.snake.Parts ≠ [])
    (_hd : validDir g.snake.Direction)
    (hi : i < g.snake.Parts.length)
    (hp : g.snake.Parts[i] = prospectiveHead g)
    (hfirst : ∀ j, j < i → g.snake.Parts[j]? ≠ some (prospectiveHead g))
    (hfood : prospectiveHead g ≠ g.food) :
    (tick f g).score = Int.tdiv g.score g.snake.Size * (i : Int)
    ∧ (tick f g).snake.Size = (i : Int)
    ∧ (tick f g).snake.Parts.length = i := by
  have haux : cutIfSnakeAux (prospectiveHead g) g.snake.Parts
      = some (g.snake.Parts.take i) :=
    cutAux_first (prospectiveHead g) g.snake.Parts i hi hp hfirst
  have hlen : (g.snake.Parts.take i).length = i := by
    simp only [List.length_take]
    omega
  have haux1 : cutIfSnakeAux (prospectiveHead g)
      (wallStep (prospectiveHead g) g).snake.Parts = some (g.snake.Parts.take i) := by
    rw [wallStep_snake]
    exact haux
  have hfood2 : prospectiveHead g
      ≠ (cutStep (prospectiveHead g) (wallStep (prospectiveHead g) g)).food := by
    rw [cutStep_food, wallStep_food]
    exact hfood
  obtain ⟨hs, hz, _, hl⟩ := foodStep_miss_fields f (prospectiveHead g)
    (cutStep (prospectiveHead g) (wallStep (prospectiveHead g) g)) hfood2
  unfold tick
  refine ⟨?_, ?_, ?_⟩
  · rw [hs, cutStep_found_score (prospectiveHead g) (wallStep (prospectiveHead g) g)
      (g.snake.Parts.take i) haux1, wallStep_score, wallStep_snake, hlen]
  · rw [hz, cutStep_found_size (prospectiveHead g) (wallStep (prospectiveHead g) g)
      (g.snake.Parts.take i) haux1, hlen]
  · rw [hl, cutStep_found_parts (prospectiveHead g) (wallStep (prospectiveHead g) g)
      (g.snake.Parts.take i) haux1, hlen]

/-- Witness for C1 (amended): for the length-5 snake biting its cell of index
2 with score 9, the body truncates to 2 cells and the score becomes
(9 / 5) * 2 = 2. -/
theorem tick_selfbite_rescales_score_divide_first_witness :
    (tick ⟨0, 0⟩ c1State).score
      = Int.tdiv c1State.score c1State.snake.Size * ((2 : Nat) : Int)
    ∧ (tick ⟨0, 0⟩ c1State).snake.Size = ((2 : Nat) : Int)
    ∧ (tick ⟨0, 0⟩ c1State).snake.Parts.length = 2 :=
  tick_selfbite_rescales_score_divide_first ⟨0, 0⟩ c1State 2
    (by decide) (by decide) (by decide) (by decide) (by decide) (by decide)

/-- Counterexample for C1 as stated: with score 9, old length (and Size) 5 and
new length 2, the code yields (9 / 5) * 2 = 2 while the claimed formula
score * newBodyLength / oldBodyLength gives (9 * 2) / 5 = 3; the truncation to
length 2 itself is as claimed. -/
theorem tick_selfbite_multiply_first_counterexample :
    (tick ⟨0, 0⟩ c1State).snake.Parts.length = 2
    ∧ (tick ⟨0, 0⟩ c1State).score
        = Int.tdiv c1State.score c1State.snake.Size * 2
    ∧ (tick ⟨0, 0⟩ c1State).score
        ≠ Int.tdiv (c1State.score * 2) c1State.snake.Size := by
  decide

/-- C3 evaluation: the initial Reset of the zero-valued snake gives the 3-cell
body at row 1, direction right and Size 3 as claimed; but restartGame on a
game whose snake already has Size 3 resets gameOver, score, ateFood, speed and
the body, while the Size counter becomes 6, not 3, because Snake.Reset
increments Size without zeroing it. -/
theorem reset_and_restart_evaluation :
    NewSnake.Reset.Parts = [⟨3, 1⟩, ⟨2, 1⟩, ⟨1, 1⟩]
    ∧ NewSnake.Reset.Direction = Dir.right
    ∧ NewSnake.Reset.Size = 3
    ∧ (restartGame c3State).gameOver = false
    ∧ (restartGame c3State).score = 0
    ∧ (restartGame c3State).ateFood = 0
    ∧ (restartGame c3State).speed = startSpeed
    ∧ (restartGame c3State).snake.Parts = [⟨3, 1⟩, ⟨2, 1⟩, ⟨1, 1⟩]
    ∧ (restartGame c3State).snake.Direction = Dir.right
    ∧ (restartGame c3State).snake.Size = 6 := by
  decide

/-- C8: whenever the food-generation loop returns (for any stream of
rand.Intn(cellsCount) draws, each inside [0,20) on both axes), the accepted
cell lies inside the grid and is not a member of the snake body; stated for
every body that leaves at least one free grid cell. -/
theorem foodGeneration_returns_free_cell_in_grid (s : Snake)
    (draws : List (Nat × Nat)) (p : Point)
    (hdraws : ∀ d ∈ draws, d.1 < 20 ∧ d.2 < 20)
    (_hfree : ∃ q : Point, inGrid q ∧ s.IsSnake q = false)
    (hret : foodGeneration s draws = some p) :
    inGrid p ∧ s.IsSnake p = false := by
  induction draws with
  | nil => simp [foodGeneration] at hret
  | cons d rest ih =>
    obtain ⟨rx, ry⟩ := d
    have hd := hdraws (rx, ry) (List.mem_cons_self _ _)
    simp only [foodGeneration] at hret
    by_cases hs : s.IsSnake ⟨(rx : Int), (ry : Int)⟩ = true
    · rw [if_pos hs] at hret
      exact ih (fun d hd2 => hdraws d (List.mem_cons_of_mem _ hd2)) hret
    · rw [if_neg hs] at hret
      obtain rfl : (⟨(rx : Int), (ry : Int)⟩ : Point) = p := Option.some.inj hret
      obtain ⟨h1, h2⟩ := hd
      constructor
      · simp only [inGrid, cellsCount]
        omega
      · simpa using hs

/-- Witness for C8: on the reset body, the draw stream [(1,1),(5,5)] rejects
(1,1) (a body cell) and returns (5,5), which is in the grid and off the body. -/
theorem foodGeneration_returns_free_cell_in_grid_witness :
    inGrid (⟨5, 5⟩ : Point) ∧ NewSnake.Reset.IsSnake ⟨5, 5⟩ = false :=
  foodGeneration_returns_free_cell_in_grid NewSnake.Reset [(1, 1), (5, 5)] ⟨5, 5⟩
    (by decide) ⟨⟨5, 5⟩, by decide, by decide⟩ (by decide)
